import Mathlib

/-!
Shallow embedding of the message framing codec of the `protocol` crate
(`src/protocol/src/lib.rs`) and of the server's jumble transformation
(`src/protocol/src/bin/server.rs`).

Byte streams are modelled as `List Nat` (each element a byte value `< 256`);
reading from a stream is explicit state passing: a reader takes the stream and
returns a result together with the remaining stream.  Fallible operations
return `Except IoError`.  Rust `String` payloads are modelled by their UTF-8
byte content together with the predicate `validUtf8` (the byte-level validity
check performed by `String::from_utf8`).
-/

namespace TcpDemo

/-- The distinct `io::Error` values produced by the codec:
`unexpectedEof` models `ErrorKind::UnexpectedEof` from short reads
(`read_exact` / `byteorder` reads), `invalidUtf8` models
`InvalidData, "Invalid utf8"`, and `invalidRequestType` models
`InvalidData, "Invalid Request Type"`. -/
inductive IoError where
  | unexpectedEof
  | invalidUtf8
  | invalidRequestType
deriving DecidableEq, Repr

/-- `Request` from `src/protocol/src/lib.rs`: `Echo(String)` or
`Jumble { message: String, amount: u16 }`.  The string is its UTF-8 byte
content; `amount` is a `u16` value (a `Nat` kept `< 65536`). -/
inductive Request where
  | echo (message : List Nat)
  | jumble (message : List Nat) (amount : Nat)
deriving DecidableEq, Repr

/-- `Response(pub String)` from `src/protocol/src/lib.rs`. -/
structure Response where
  message : List Nat
deriving DecidableEq, Repr

/-- Big-endian (network order) encoding of a 16-bit value, as written by
`write_u16::<NetworkEndian>`. -/
def u16be (n : Nat) : List Nat := [n / 256, n % 256]

/-- `Request::serialize`: returns the bytes written and the reported
`bytes_written` count.  The `message.len() as u16` cast in the source is the
`% 65536` reduction here.  Writing to a byte buffer cannot fail, so the
result is total. -/
def requestSerialize : Request → List Nat × Nat
  | Request.echo m =>
      (1 :: (u16be (m.length % 65536) ++ m), 1 + (2 + m.length))
  | Request.jumble m a =>
      (2 :: (u16be (m.length % 65536) ++ m ++ u16be 2 ++ u16be a),
        1 + (2 + m.length) + 4)

/-- `Response::serialize`: writes the length prefix and the payload bytes and
reports `3 + resp_bytes.len()` (the source counts a type byte it never
writes). -/
def responseSerialize (r : Response) : List Nat × Nat :=
  (u16be (r.message.length % 65536) ++ r.message, 3 + r.message.length)

/-- `read_u8`: one byte from the stream, `UnexpectedEof` on an empty one. -/
def readU8 (s : List Nat) : Except IoError Nat × List Nat :=
  match s with
  | [] => (Except.error IoError.unexpectedEof, [])
  | b :: rest => (Except.ok b, rest)

/-- `read_u16::<NetworkEndian>`: two bytes, big endian; a stream shorter than
two bytes gives `UnexpectedEof` (everything available is consumed). -/
def readU16 (s : List Nat) : Except IoError Nat × List Nat :=
  match s with
  | hi :: lo :: rest => (Except.ok (hi * 256 + lo), rest)
  | _ => (Except.error IoError.unexpectedEof, [])

/-- `read_exact` into a buffer of size `n`: succeeds only when `n` bytes are
available, otherwise `UnexpectedEof` (everything available is consumed). -/
def readExact (n : Nat) (s : List Nat) : Except IoError (List Nat) × List Nat :=
  if n ≤ s.length then (Except.ok (s.take n), s.drop n)
  else (Except.error IoError.unexpectedEof, [])

/-- Is `b` a UTF-8 continuation byte (`0x80..=0xBF`)? -/
def contByte (b : Nat) : Bool := 128 ≤ b && b ≤ 191

/-- The byte-level UTF-8 validity check performed by `String::from_utf8`
(the well-formedness table of RFC 3629: no overlong forms, no surrogates,
no code points above `U+10FFFF`). -/
def validUtf8 : List Nat → Bool
  | [] => true
  | b :: rest =>
    if b ≤ 127 then validUtf8 rest
    else if 194 ≤ b && b ≤ 223 then
      match rest with
      | c1 :: r => contByte c1 && validUtf8 r
      | [] => false
    else if b = 224 then
      match rest with
      | c1 :: c2 :: r => (160 ≤ c1 && c1 ≤ 191) && contByte c2 && validUtf8 r
      | _ => false
    else if 225 ≤ b && b ≤ 236 then
      match rest with
      | c1 :: c2 :: r => contByte c1 && contByte c2 && validUtf8 r
      | _ => false
    else if b = 237 then
      match rest with
      | c1 :: c2 :: r => (128 ≤ c1 && c1 ≤ 159) && contByte c2 && validUtf8 r
      | _ => false
    else if 238 ≤ b && b ≤ 239 then
      match rest with
      | c1 :: c2 :: r => contByte c1 && contByte c2 && validUtf8 r
      | _ => false
    else if b = 240 then
      match rest with
      | c1 :: c2 :: c3 :: r =>
          (144 ≤ c1 && c1 ≤ 191) && contByte c2 && contByte c3 && validUtf8 r
      | _ => false
    else if 241 ≤ b && b ≤ 243 then
      match rest with
      | c1 :: c2 :: c3 :: r =>
          contByte c1 && contByte c2 && contByte c3 && validUtf8 r
      | _ => false
    else if b = 244 then
      match rest with
      | c1 :: c2 :: c3 :: r =>
          (128 ≤ c1 && c1 ≤ 143) && contByte c2 && contByte c3 && validUtf8 r
      | _ => false
    else false

/-- `extract_string`: read a `u16` length, `read_exact` that many bytes, then
validate them as UTF-8 (`InvalidData, "Invalid utf8"` on failure). -/
def extractString (s : List Nat) : Except IoError (List Nat) × List Nat :=
  match readU16 s with
  | (Except.error e, r) => (Except.error e, r)
  | (Except.ok len, r) =>
    match readExact len r with
    | (Except.error e, r2) => (Except.error e, r2)
    | (Except.ok bytes, r2) =>
      if validUtf8 bytes then (Except.ok bytes, r2)
      else (Except.error IoError.invalidUtf8, r2)

/-- `Request::deserialize`: dispatch on the discriminant byte (`1` = Echo,
`2` = Jumble, anything else `InvalidData, "Invalid Request Type"`); the
Jumble branch reads and discards the amount-field length prefix. -/
def requestDeserialize (s : List Nat) : Except IoError Request × List Nat :=
  match readU8 s with
  | (Except.error e, r) => (Except.error e, r)
  | (Except.ok t, r) =>
    if t = 1 then
      match extractString r with
      | (Except.ok m, r2) => (Except.ok (Request.echo m), r2)
      | (Except.error e, r2) => (Except.error e, r2)
    else if t = 2 then
      match extractString r with
      | (Except.error e, r2) => (Except.error e, r2)
      | (Except.ok m, r2) =>
        match readU16 r2 with
        | (Except.error e, r3) => (Except.error e, r3)
        | (Except.ok _alen, r3) =>
          match readU16 r3 with
          | (Except.error e, r4) => (Except.error e, r4)
          | (Except.ok amount, r4) =>
              (Except.ok (Request.jumble m amount), r4)
    else (Except.error IoError.invalidRequestType, r)

/-- `Response::deserialize`: a single `extract_string`. -/
def responseDeserialize (s : List Nat) : Except IoError Response × List Nat :=
  match extractString s with
  | (Except.ok m, r) => (Except.ok ⟨m⟩, r)
  | (Except.error e, r) => (Except.error e, r)

/-- `Vec::swap(0, k)` on a character vector: exchange the elements at
positions `0` and `k` (identity when `k = 0`). -/
def listSwap (cs : List Char) (k : Nat) : List Char :=
  (cs.set 0 (cs.getD k (Char.ofNat 32))).set k (cs.getD 0 (Char.ofNat 32))

/-- One iteration of the jumble loop:
`let shuffle = i % chars.len(); chars.swap(0, shuffle)`.
`i % 0` panics in Rust, modelled as `none`. -/
def jumbleStep (cs : List Char) (i : Nat) : Option (List Char) :=
  if cs.length = 0 then none
  else some (listSwap cs (i % cs.length))

/-- `jumble_message` from `src/protocol/src/bin/server.rs`: the loop
`for i in 1..=amount` applying `jumbleStep`; `none` models a panic. -/
def jumbleMessage (message : List Char) (amount : Nat) : Option (List Char) :=
  (List.range amount).foldl
    (fun acc i => acc.bind fun cs => jumbleStep cs (i + 1)) (some message)

/-- Modelled from the spec (§4.3): the jumble transformation described as
"for `i` from 1 to `amount` inclusive, swap the first character with the
character at index `i % length`", where `length` is the character count of
the message.  Used only to be compared with `jumbleMessage`. -/
def jumbleSpec : List Char → Nat → List Char
  | m, 0 => m
  | m, a + 1 => listSwap (jumbleSpec m a) ((a + 1) % m.length)

end TcpDemo

namespace TcpDemo

/-! ### Helper lemmas about the codec -/

theorem readExact_encode (m tail : List Nat) :
    readExact m.length (m ++ tail) = (Except.ok m, tail) := by
  simp [readExact]

theorem extractString_encode (m tail : List Nat) (hlen : m.length ≤ 65535)
    (hutf : validUtf8 m = true) :
    extractString (u16be m.length ++ (m ++ tail)) = (Except.ok m, tail) := by
  have hval : m.length / 256 * 256 + m.length % 256 = m.length := by omega
  show extractString (m.length / 256 :: m.length % 256 :: (m ++ tail)) = _
  simp [extractString, readU16, hval, readExact_encode, hutf]

/-! ### Helper lemmas about the jumble transformation -/

theorem length_listSwap (cs : List Char) (k : Nat) :
    (listSwap cs k).length = cs.length := by
  simp [listSwap]

theorem jumbleSpec_length (m : List Char) (a : Nat) :
    (jumbleSpec m a).length = m.length := by
  induction a with
  | zero => rfl
  | succ n ih => simp [jumbleSpec, length_listSwap, ih]

theorem jumbleMessage_eq_spec (m : List Char) (a : Nat) (h : m.length ≠ 0) :
    jumbleMessage m a = some (jumbleSpec m a) := by
  induction a with
  | zero => rfl
  | succ n ih =>
    unfold jumbleMessage at ih ⊢
    rw [List.range_succ, List.foldl_append, ih]
    have hk : (jumbleSpec m n).length = m.length := jumbleSpec_length m n
    have hne : jumbleSpec m n ≠ [] := by
      intro hc
      rw [hc] at hk
      exact h hk.symm
    simp [jumbleStep, hk, h, hne, jumbleSpec]

theorem jumbleFoldl_none (l : List Nat) :
    l.foldl (fun acc i => acc.bind fun cs => jumbleStep cs (i + 1)) none
      = none := by
  induction l with
  | nil => rfl
  | cons x xs ih => simpa using ih

/-! ### The claims -/

/-- Claim C1: for every `Request` the byte count returned by `serialize`
equals the number of bytes written, but for a `Response` the source reports
`3 + len` while writing only `2 + len` bytes (it counts a type byte that
`Response::serialize` never writes, contradicting its own doc comment
"Returns the number of bytes written"): evaluated at the failing input
`Response("")`, two bytes are written and three are reported. -/
theorem c1_serialize_byte_count :
    (∀ r : Request, (requestSerialize r).1.length = (requestSerialize r).2)
    ∧ (responseSerialize ⟨[]⟩).1.length = 2
    ∧ (responseSerialize ⟨[]⟩).2 = 3 := by
  refine ⟨fun r => ?_, by rfl, by rfl⟩
  cases r with
  | echo m => simp [requestSerialize, u16be]; omega
  | jumble m a => simp [requestSerialize, u16be]; omega

/-- Claim C2 (counterexample): serializing an Echo request whose payload is
65536 bytes long does not fail; the `as u16` cast silently wraps the length
prefix to `0` (bytes 1-2 of the frame) while all 65536 payload bytes are
still written, so the claim "serialize rejects the message with an error and
never silently wraps the length prefix" is false on the code. -/
theorem c2_oversized_wraps_counterexample :
    (requestSerialize (Request.echo (List.replicate 65536 97))).1.take 3
      = [1, 0, 0]
    ∧ (requestSerialize (Request.echo (List.replicate 65536 97))).1.length
      = 65539 := by
  have hlen : (List.replicate 65536 (97 : Nat)).length = 65536 :=
    List.length_replicate 65536 97
  have h0 : (List.replicate 65536 (97 : Nat)).length % 65536 = 0 := by
    rw [hlen]
  constructor
  · show (1 :: (u16be ((List.replicate 65536 (97 : Nat)).length % 65536)
        ++ List.replicate 65536 97)).take 3 = [1, 0, 0]
    rw [h0]
    show (1 :: 0 :: 0 :: List.replicate 65536 97).take 3 = [1, 0, 0]
    rw [List.take_succ_cons, List.take_succ_cons, List.take_succ_cons,
      List.take_zero]
  · show (1 :: (u16be ((List.replicate 65536 (97 : Nat)).length % 65536)
        ++ List.replicate 65536 97)).length = 65539
    rw [h0]
    show (1 :: 0 :: 0 :: List.replicate 65536 97).length = 65539
    rw [List.length_cons, List.length_cons, List.length_cons, hlen]

/-- Claim C2 (amended): for every message whose payload byte length exceeds
65535, `serialize` does not reject it — on every message kind (Echo request,
Jumble request with any `amount`, and Response) it succeeds, writing a
length prefix equal to the byte length reduced modulo 65536 (the `as u16`
cast) followed by the full payload (and, for Jumble, the amount fields), and
that wrapped prefix differs from the actual payload length. -/
theorem c2_oversized_no_reject_amended (m : List Nat) (h : 65535 < m.length) :
    ((requestSerialize (Request.echo m)).1
        = 1 :: m.length % 65536 / 256 :: m.length % 65536 % 256 :: m
      ∧ (∀ a : Nat, (requestSerialize (Request.jumble m a)).1
        = 2 :: m.length % 65536 / 256 :: m.length % 65536 % 256
            :: (m ++ [0, 2, a / 256, a % 256]))
      ∧ (responseSerialize ⟨m⟩).1
        = m.length % 65536 / 256 :: m.length % 65536 % 256 :: m)
    ∧ m.length % 65536 ≠ m.length := by
  refine ⟨⟨by simp [requestSerialize, u16be],
    fun a => by simp [requestSerialize, u16be],
    by simp [responseSerialize, u16be]⟩, ?_⟩
  have : m.length % 65536 < 65536 := Nat.mod_lt _ (by omega)
  omega

/-- Claim C2 (witness): the amended statement applied to the concrete
65536-byte payload of claim C2's counterexample, for all three message
kinds (Jumble with `amount = 5`): every length prefix wraps to 0. -/
theorem c2_oversized_no_reject_witness :
    65535 < (List.replicate 65536 (97 : Nat)).length
    ∧ ((requestSerialize (Request.echo (List.replicate 65536 97))).1
        = 1 :: 0 :: 0 :: List.replicate 65536 97
      ∧ (requestSerialize (Request.jumble (List.replicate 65536 97) 5)).1
        = 2 :: 0 :: 0 :: (List.replicate 65536 97 ++ [0, 2, 0, 5])
      ∧ (responseSerialize ⟨List.replicate 65536 97⟩).1
        = 0 :: 0 :: List.replicate 65536 97) := by
  have hlt : 65535 < (List.replicate 65536 (97 : Nat)).length := by
    rw [List.length_replicate]; decide
  have h := (c2_oversized_no_reject_amended (List.replicate 65536 97) hlt).1
  have he := h.1
  have hj := h.2.1 5
  have hr := h.2.2
  rw [List.length_replicate] at he hj hr
  rw [show (65536 : Nat) % 65536 = 0 from rfl] at he hj hr
  exact ⟨hlt, he, hj, hr⟩

/-- Claim C3: for every `Request` (Echo or Jumble) whose message payload is
valid UTF-8 of byte length at most 65535 (and whose `amount` fits in a u16),
deserializing the serialized bytes returns exactly the original request with
the whole frame consumed. -/
theorem c3_request_roundtrip (m : List Nat) (a : Nat)
    (hutf : validUtf8 m = true) (hlen : m.length ≤ 65535) (ha : a < 65536) :
    requestDeserialize (requestSerialize (Request.echo m)).1
      = (Except.ok (Request.echo m), [])
    ∧ requestDeserialize (requestSerialize (Request.jumble m a)).1
      = (Except.ok (Request.jumble m a), []) := by
  have hmod : m.length % 65536 = m.length := Nat.mod_eq_of_lt (by omega)
  have hval : a / 256 * 256 + a % 256 = a := by omega
  constructor
  · show requestDeserialize (1 :: (u16be (m.length % 65536) ++ m)) = _
    rw [hmod]
    have h := extractString_encode m [] hlen hutf
    rw [List.append_nil] at h
    simp [requestDeserialize, readU8, h]
  · show requestDeserialize
        (2 :: (u16be (m.length % 65536) ++ m ++ u16be 2 ++ u16be a)) = _
    rw [hmod]
    have hshape : u16be m.length ++ m ++ u16be 2 ++ u16be a
        = u16be m.length ++ (m ++ (0 :: 2 :: a / 256 :: a % 256 :: [])) := by
      simp [u16be]
    rw [show requestDeserialize
          (2 :: (u16be m.length ++ m ++ u16be 2 ++ u16be a))
        = requestDeserialize
          (2 :: (u16be m.length ++ (m ++ (0 :: 2 :: a / 256 :: a % 256 :: []))))
        by rw [hshape]]
    simp [requestDeserialize, readU8, extractString_encode m _ hlen hutf,
      readU16, hval]

/-- Claim C3 (witness): the round-trip at the concrete request pair
Echo("hi") and Jumble("hi", 42). -/
theorem c3_request_roundtrip_witness :
    validUtf8 [104, 105] = true
    ∧ ([104, 105] : List Nat).length ≤ 65535
    ∧ 42 < 65536
    ∧ requestDeserialize (requestSerialize (Request.echo [104, 105])).1
        = (Except.ok (Request.echo [104, 105]), [])
    ∧ requestDeserialize (requestSerialize (Request.jumble [104, 105] 42)).1
        = (Except.ok (Request.jumble [104, 105] 42), []) := by
  have h := c3_request_roundtrip [104, 105] 42 (by decide) (by decide)
    (by decide)
  exact ⟨by decide, by decide, by decide, h.1, h.2⟩

/-- Claim C4: for every `Response` whose payload is valid UTF-8 of byte
length at most 65535, deserializing the serialized bytes returns a response
with the same string. -/
theorem c4_response_roundtrip (m : List Nat)
    (hutf : validUtf8 m = true) (hlen : m.length ≤ 65535) :
    responseDeserialize (responseSerialize ⟨m⟩).1 = (Except.ok ⟨m⟩, []) := by
  have hmod : m.length % 65536 = m.length := Nat.mod_eq_of_lt (by omega)
  show responseDeserialize (u16be (m.length % 65536) ++ m) = _
  rw [hmod]
  have h := extractString_encode m [] hlen hutf
  rw [List.append_nil] at h
  simp [responseDeserialize, h]

/-- Claim C4 (witness): the response round-trip at the concrete payload
"hi". -/
theorem c4_response_roundtrip_witness :
    validUtf8 [104, 105] = true
    ∧ ([104, 105] : List Nat).length ≤ 65535
    ∧ responseDeserialize (responseSerialize ⟨[104, 105]⟩).1
        = (Except.ok ⟨[104, 105]⟩, []) :=
  ⟨by decide, by decide,
    c4_response_roundtrip [104, 105] (by decide) (by decide)⟩

/-- Claim C5: a stream whose declared string length exceeds the bytes that
follow makes `extract_string` — and with it `Request::deserialize` on either
discriminant and `Response::deserialize` — fail with the end-of-input error;
no partially decoded message is ever returned. -/
theorem c5_short_frame_eof (hi lo : Nat) (rest : List Nat)
    (hshort : rest.length < hi * 256 + lo) :
    extractString (hi :: lo :: rest) = (Except.error IoError.unexpectedEof, [])
    ∧ requestDeserialize (1 :: hi :: lo :: rest)
      = (Except.error IoError.unexpectedEof, [])
    ∧ requestDeserialize (2 :: hi :: lo :: rest)
      = (Except.error IoError.unexpectedEof, [])
    ∧ responseDeserialize (hi :: lo :: rest)
      = (Except.error IoError.unexpectedEof, []) := by
  have hx : extractString (hi :: lo :: rest)
      = (Except.error IoError.unexpectedEof, []) := by
    have hn : ¬ (hi * 256 + lo ≤ rest.length) := by omega
    simp [extractString, readU16, readExact, hn]
  refine ⟨hx, ?_, ?_, ?_⟩
  · simp [requestDeserialize, readU8, hx]
  · simp [requestDeserialize, readU8, hx]
  · simp [responseDeserialize, hx]

/-- Claim C5 (witness): a frame declaring five payload bytes but providing
none fails with the end-of-input error on every decoder. -/
theorem c5_short_frame_eof_witness :
    ([] : List Nat).length < 0 * 256 + 5
    ∧ (extractString [0, 5] = (Except.error IoError.unexpectedEof, [])
      ∧ requestDeserialize [1, 0, 5]
          = (Except.error IoError.unexpectedEof, [])
      ∧ requestDeserialize [2, 0, 5]
          = (Except.error IoError.unexpectedEof, [])
      ∧ responseDeserialize [0, 5]
          = (Except.error IoError.unexpectedEof, [])) :=
  ⟨by decide, c5_short_frame_eof 0 5 [] (by decide)⟩

/-- Claim C6: a first byte other than 1 or 2 makes `Request::deserialize`
fail with the invalid-request-type error, leaving the rest of the stream
unread (only the discriminant byte is consumed). -/
theorem c6_invalid_discriminant (b : Nat) (rest : List Nat)
    (hb : b < 256) (h1 : b ≠ 1) (h2 : b ≠ 2) :
    requestDeserialize (b :: rest)
      = (Except.error IoError.invalidRequestType, rest) := by
  simp [requestDeserialize, readU8, h1, h2]

/-- Claim C6 (witness): discriminant 3 with a trailing byte fails with the
invalid-request-type error and leaves the trailing byte unconsumed. -/
theorem c6_invalid_discriminant_witness :
    3 < 256 ∧ 3 ≠ 1 ∧ 3 ≠ 2
    ∧ requestDeserialize [3, 7]
        = (Except.error IoError.invalidRequestType, [7]) :=
  ⟨by decide, by decide, by decide,
    c6_invalid_discriminant 3 [7] (by decide) (by decide) (by decide)⟩

/-- Claim C7: when the declared length is satisfied but the payload bytes
are not valid UTF-8, `extract_string` (and `Response::deserialize` with it)
fails with the invalid-UTF-8 error, which is distinct from the short-frame
(end-of-input) error; the bytes are never replaced by a decoded value. -/
theorem c7_invalid_utf8 (hi lo : Nat) (rest : List Nat)
    (hlen : hi * 256 + lo ≤ rest.length)
    (hbad : validUtf8 (rest.take (hi * 256 + lo)) = false) :
    extractString (hi :: lo :: rest)
      = (Except.error IoError.invalidUtf8, rest.drop (hi * 256 + lo))
    ∧ responseDeserialize (hi :: lo :: rest)
      = (Except.error IoError.invalidUtf8, rest.drop (hi * 256 + lo))
    ∧ IoError.invalidUtf8 ≠ IoError.unexpectedEof := by
  have hx : extractString (hi :: lo :: rest)
      = (Except.error IoError.invalidUtf8, rest.drop (hi * 256 + lo)) := by
    simp [extractString, readU16, readExact, hlen, hbad]
  exact ⟨hx, by simp [responseDeserialize, hx], by decide⟩

/-- Claim C7 (witness): a one-byte payload `0xFF` satisfies its declared
length but is rejected as invalid UTF-8. -/
theorem c7_invalid_utf8_witness :
    0 * 256 + 1 ≤ ([255] : List Nat).length
    ∧ validUtf8 (([255] : List Nat).take (0 * 256 + 1)) = false
    ∧ (extractString [0, 1, 255] = (Except.error IoError.invalidUtf8, [])
      ∧ responseDeserialize [0, 1, 255]
          = (Except.error IoError.invalidUtf8, [])
      ∧ IoError.invalidUtf8 ≠ IoError.unexpectedEof) :=
  ⟨by decide, by decide, c7_invalid_utf8 0 1 [255] (by decide) (by decide)⟩

/-- Claim C8: the jumble transformation is a pure function of the message
and `amount` (determinism is definitional in the embedding); `amount = 0`
returns the message unchanged, and on every non-empty message the
implementation agrees with the spec-side description `jumbleSpec` — for `i`
from 1 to `amount` inclusive, swap the character at index 0 with the one at
index `i` modulo the character count. -/
theorem c8_jumble_deterministic_spec :
    (∀ m : List Char, jumbleMessage m 0 = some m)
    ∧ ∀ (m : List Char) (a : Nat), m ≠ [] →
        jumbleMessage m a = some (jumbleSpec m a) := by
  refine ⟨fun m => rfl, fun m a h => ?_⟩
  exact jumbleMessage_eq_spec m a (fun hh => h (List.length_eq_zero.mp hh))

/-- Claim C8 (witness): the identity at "a" with `amount = 0` and the spec
agreement at "ab" with `amount = 3`. -/
theorem c8_jumble_witness :
    jumbleMessage [Char.ofNat 97] 0 = some [Char.ofNat 97]
    ∧ ([Char.ofNat 97, Char.ofNat 98] ≠ ([] : List Char)
      ∧ jumbleMessage [Char.ofNat 97, Char.ofNat 98] 3
          = some (jumbleSpec [Char.ofNat 97, Char.ofNat 98] 3)) :=
  ⟨c8_jumble_deterministic_spec.1 _, by decide,
    c8_jumble_deterministic_spec.2 _ 3 (by decide)⟩

/-- Claim C9: on a Jumble frame the decoder reads the two amount-length
bytes and ignores their value entirely: for arbitrary bytes `x y` in that
field the decode succeeds and yields the same request, whose `amount` comes
only from the following two bytes. -/
theorem c9_amount_len_ignored (m : List Nat) (x y c d : Nat) (rest : List Nat)
    (hutf : validUtf8 m = true) (hlen : m.length ≤ 65535) :
    requestDeserialize
        (2 :: (u16be m.length ++ (m ++ (x :: y :: c :: d :: rest))))
      = (Except.ok (Request.jumble m (c * 256 + d)), rest) := by
  simp [requestDeserialize, readU8, extractString_encode m _ hlen hutf,
    readU16]

/-- Claim C9 (witness): a Jumble frame for "hi" whose amount-length field
holds the nonsense value 0x0909 still decodes, amount 7. -/
theorem c9_amount_len_ignored_witness :
    validUtf8 [104, 105] = true
    ∧ ([104, 105] : List Nat).length ≤ 65535
    ∧ requestDeserialize [2, 0, 2, 104, 105, 9, 9, 0, 7, 42]
        = (Except.ok (Request.jumble [104, 105] 7), [42]) := by
  refine ⟨by decide, by decide, ?_⟩
  exact c9_amount_len_ignored [104, 105] 9 9 0 7 [42] (by decide) (by decide)

/-- Claim C10: jumbling the empty message with any `amount ≥ 1` reaches the
`i % chars.len()` computation with `chars.len() = 0`, the remainder-by-zero
panic modelled by `none`: the error branch is reachable. -/
theorem c10_jumble_empty_panics (a : Nat) (h : 1 ≤ a) :
    jumbleMessage [] a = none := by
  obtain ⟨n, rfl⟩ : ∃ n, a = n + 1 := ⟨a - 1, by omega⟩
  unfold jumbleMessage
  rw [List.range_succ_eq_map, List.foldl_cons]
  exact jumbleFoldl_none _

/-- Claim C10 (witness): the empty message with `amount = 1`. -/
theorem c10_jumble_empty_witness :
    1 ≤ 1 ∧ jumbleMessage [] 1 = none :=
  ⟨by decide, c10_jumble_empty_panics 1 (by decide)⟩

end TcpDemo
